import Mathlib

/-!
Verification of the journalgrabber profile-driven polling and deduplication
engine.  The Python sources (app.py, arxiv_scraper.py, config.py) are shallowly
embedded: database rows become Lean structures, the ingest loop becomes a
recursive function over the result list, network and filesystem effects become
explicit deterministic oracles passed as function arguments, and Python
exceptions become the Except monad.
-/

namespace JournalGrabber

/-! ## Data model (app.py lines 33-52) -/
/-- Row of the search_profile table (class SearchProfile, app.py:33-41). -/
structure Profile where
  id : Nat
  name : String
  topics : List String
  frequency_hours : Int
  download_path : String
  is_active : Bool
  last_run : Option Nat
deriving Repr, DecidableEq

/-- Row of the downloaded_article table (class DownloadedArticle, app.py:43-52).
The arxiv_id column carries a UNIQUE constraint. -/
structure CatalogEntry where
  arxiv_id : String
  title : String
  authors : String
  abstract : String
  subjects : String
  file_path : String
  profile_id : Nat
deriving Repr, DecidableEq

/-- A normalized provider result as consumed by run_search_profile:
the dictionary fields it reads (article['id'], ['title'], ['authors'],
['summary'], ['categories']). -/
structure Article where
  id : String
  title : String
  authors : List String
  summary : String
  categories : List String
deriving Repr, DecidableEq

/-- Python ', '.join / ' OR '.join. -/
def join_with (sep : String) : List String → String
  | [] => ""
  | [s] => s
  | s :: rest => s ++ sep ++ join_with sep rest

/-- The pre-check query DownloadedArticle.query.filter_by(arxiv_id=...).first()
(app.py:436), viewed as a membership test on the session-visible catalog. -/
def inCatalog (catalog : List CatalogEntry) (aid : String) : Bool :=
  catalog.any (fun e => e.arxiv_id == aid)

/-- The DownloadedArticle(...) row built at app.py:448-456. -/
def mkEntry (a : Article) (fp : String) (pid : Nat) : CatalogEntry :=
  { arxiv_id := a.id
    title := a.title
    authors := join_with ", " a.authors
    abstract := a.summary
    subjects := join_with ", " a.categories
    file_path := fp
    profile_id := pid }

/-- Observable steps of one pipeline invocation, for stating ordering and
multiplicity properties of the run. -/
inductive Event where
  | processed (aid : String)
  | skippedKnown (aid : String)
  | added (aid : String)
  | lastRunSet (t : Nat)
deriving Repr, DecidableEq

def Event.isLastRunSet : Event → Bool
  | .lastRunSet _ => true
  | _ => false

structure LoopResult where
  count : Nat
  catalog : List CatalogEntry
  newEntries : List CatalogEntry
  trace : List Event
deriving Repr

/-- The for-loop of run_search_profile (app.py:432-459).  `download` is the
deterministic fetch oracle standing for scraper.download_article (id and
destination directory in, local path or None out).  The session-visible
catalog grows as rows are added, matching SQLAlchemy autoflush making pending
rows visible to the pre-check query. -/
def runLoop (download : String → String → Option String) (dp : String) (pid : Nat) :
    List Article → Nat → List CatalogEntry → List CatalogEntry → List Event → LoopResult
  | [], count, catalog, news, trace =>
    { count := count, catalog := catalog, newEntries := news, trace := trace }
  | a :: rest, count, catalog, news, trace =>
    if inCatalog catalog a.id then
      runLoop download dp pid rest count catalog news
        (trace ++ [Event.processed a.id, Event.skippedKnown a.id])
    else
      match download a.id dp with
      | none =>
        runLoop download dp pid rest count catalog news (trace ++ [Event.processed a.id])
      | some fp =>
        runLoop download dp pid rest (count + 1) (catalog ++ [mkEntry a fp pid])
          (news ++ [mkEntry a fp pid]) (trace ++ [Event.processed a.id, Event.added a.id])

structure RunResult where
  count : Nat
  catalog : List CatalogEntry
  newEntries : List CatalogEntry
  profile : Profile
  trace : List Event
deriving Repr

/-- run_search_profile (app.py:419-465): process every search result in order,
then unconditionally set the profile's last_run to the current time.
`now` stands for datetime.utcnow(). -/
def run_search_profile (download : String → String → Option String) (now : Nat)
    (profile : Profile) (articles : List Article) (catalog : List CatalogEntry) : RunResult :=
  let r := runLoop download profile.download_path profile.id articles 0 catalog [] []
  { count := r.count
    catalog := r.catalog
    newEntries := r.newEntries
    profile := { profile with last_run := some now }
    trace := r.trace ++ [Event.lastRunSet now] }

/-- Strict increase on nullable timestamps: a null previous value is always
exceeded, a non-null one must grow. -/
def optLt : Option Nat → Option Nat → Prop
  | none, some _ => True
  | some a, some b => a < b
  | _, none => False

/-! ## Claim C2: duplicate external identifier on commit

run_search_profile accumulates its new rows with db.session.add and issues a
single db.session.commit() (app.py:463) with no try/except around it.  The
commit is modelled against the persistent catalog as seen by the database at
commit time, which a concurrent run may have extended past the session
snapshot the pre-checks used.  SQLite's UNIQUE constraint on arxiv_id rejects
a duplicate insert; the raised IntegrityError propagates out of
run_search_profile, and the aborted transaction leaves the persistent catalog
as it was. -/
def idsOf (c : List CatalogEntry) : List String := c.map (fun e => e.arxiv_id)

def integrity_error_msg : String :=
  "IntegrityError: UNIQUE constraint failed: downloaded_article.arxiv_id"

/-- One INSERT under the UNIQUE constraint on arxiv_id. -/
def insert_unique (c : List CatalogEntry) (e : CatalogEntry) : Except String (List CatalogEntry) :=
  if inCatalog c e.arxiv_id then Except.error integrity_error_msg
  else Except.ok (c ++ [e])

/-- Flushing the session's pending rows at commit, insert by insert; the first
constraint violation aborts (and the surrounding transaction rolls back). -/
def commit_batch (persistent : List CatalogEntry) :
    List CatalogEntry → Except String (List CatalogEntry)
  | [] => Except.ok persistent
  | e :: rest =>
    match insert_unique persistent e with
    | Except.error msg => Except.error msg
    | Except.ok c2 => commit_batch c2 rest

/-- run_search_profile including its final db.session.commit(), with the
pre-checks reading the session snapshot `sessionCat` and the commit applied to
the database state `persistentCat`.  An error value is an uncaught Python
exception escaping run_search_profile; on error the transaction is rolled
back, so the database keeps the state `persistentCat`. -/
def run_search_profile_commit (download : String → String → Option String) (now : Nat)
    (profile : Profile) (articles : List Article)
    (sessionCat persistentCat : List CatalogEntry) : Except String (Nat × List CatalogEntry) :=
  let r := run_search_profile download now profile articles sessionCat
  match commit_batch persistentCat r.newEntries with
  | Except.error msg => Except.error msg
  | Except.ok P => Except.ok (r.count, P)

def isError {α : Type} : Except String α → Bool
  | Except.error _ => true
  | Except.ok _ => false

/-! ## Scheduler (app.py lines 467-486)

A job in the process-wide `schedule` registry, tagged "profile_<id>".  A job
firing is modelled by its outcome: none for a completed run, some message for
a raised exception. -/
structure SchedJob where
  tag : String
  everyHours : Int
  profileId : Nat
deriving Repr, DecidableEq

def job_tag (pid : Nat) : String := "profile_" ++ toString pid

/-- schedule.clear(job_tag) (app.py:475). -/
def schedule_clear (tag : String) (jobs : List SchedJob) : List SchedJob :=
  jobs.filter (fun j => j.tag != tag)

/-- schedule_profile (app.py:467-480): returns immediately when the profile is
inactive, otherwise clears the profile's tag and installs one new job. -/
def schedule_profile (p : Profile) (jobs : List SchedJob) : List SchedJob :=
  if p.is_active then
    schedule_clear (job_tag p.id) jobs ++ [⟨job_tag p.id, p.frequency_hours, p.id⟩]
  else jobs

def has_timer (jobs : List SchedJob) (pid : Nat) : Bool :=
  jobs.any (fun j => j.tag == job_tag pid)

/-- schedule.run_pending() as called by the driver: due jobs fire in order and
an exception raised by one propagates immediately. -/
def run_pending : List (Option String) → Except String Unit
  | [] => Except.ok ()
  | none :: rest => run_pending rest
  | some e :: _ => Except.error e

/-- One pass of the schedule_runner loop body (app.py:482-486).  The while
body is `schedule.run_pending()` with no exception handling; an error value
is an exception escaping the loop body, which kills the daemon thread. -/
def schedule_runner_tick (jobs : List (Option String)) : Except String Unit :=
  run_pending jobs

/-! ## Profile API (app.py lines 256-313) -/
/-- The JSON body accepted by PUT /api/profiles/<id>; absent keys fall back to
the stored values via data.get (app.py:296-301). -/
structure ProfileUpdate where
  name : Option String
  topics : Option (List String)
  frequency_hours : Option Int
  download_path : Option String
  is_active : Option Bool
deriving Repr, DecidableEq

def apply_update (p : Profile) (u : ProfileUpdate) : Profile :=
  { p with
    name := u.name.getD p.name
    topics := u.topics.getD p.topics
    frequency_hours := u.frequency_hours.getD p.frequency_hours
    download_path := u.download_path.getD p.download_path
    is_active := u.is_active.getD p.is_active }

/-- PUT /api/profiles/<id> (app.py:295-308): mutate the row, commit, then call
schedule_profile on the updated profile. -/
def api_profile_update (p : Profile) (u : ProfileUpdate) (jobs : List SchedJob) :
    Profile × List SchedJob :=
  let p2 := apply_update p u
  (p2, schedule_profile p2 jobs)

structure AppState where
  profiles : List Profile
  articles : List CatalogEntry
deriving Repr, DecidableEq

/-- DELETE /api/profiles/<id> (app.py:310-313): db.session.delete on the
profile row and commit.  The handler never touches the schedule registry, and
no relationship/cascade is declared on DownloadedArticle, and SQLite foreign
keys are not enforced, so article rows are untouched. -/
def api_profile_delete (st : AppState) (pid : Nat) (jobs : List SchedJob) :
    AppState × List SchedJob :=
  ({ profiles := st.profiles.filter (fun p => p.id ≠ pid), articles := st.articles }, jobs)

/-! ## Concrete instances used by counterexamples and witnesses -/
def pML : Profile := ⟨1, "ml", ["cs.LG"], 24, "/app/downloads", true, none⟩

def updInactive : ProfileUpdate := ⟨none, none, none, none, some false⟩

def jobML : SchedJob := ⟨"profile_1", 24, 1⟩

def entryML : CatalogEntry :=
  ⟨"2301.00001", "T0", "A0", "S0", "cs.AI", "/app/downloads/2301.00001.pdf", 1⟩

def stML : AppState := ⟨[pML], [entryML]⟩

/-! ## Claim C9: poll-interval bounds -/
/-- Config.MIN_FREQUENCY_HOURS (config.py:25, default 1). -/
def MIN_FREQUENCY_HOURS : Int := 1

/-- Config.MAX_FREQUENCY_HOURS (config.py:26, default 168). -/
def MAX_FREQUENCY_HOURS : Int := 168

/-- The JSON body accepted by POST /api/profiles (app.py:259-268). -/
structure ProfileCreate where
  name : String
  topics : List String
  frequency_hours : Option Int
  download_path : Option String
  is_active : Option Bool
deriving Repr, DecidableEq

/-- POST /api/profiles (app.py:256-276): builds the SearchProfile row straight
from the request body; frequency_hours defaults to 24 when absent and is
stored without any validation. -/
def api_profiles_post (newId : Nat) (data : ProfileCreate) : Profile :=
  { id := newId
    name := data.name
    topics := data.topics
    frequency_hours := data.frequency_hours.getD 24
    download_path := data.download_path.getD "/app/downloads"
    is_active := data.is_active.getD true
    last_run := none }

def createFreq1000 : ProfileCreate := ⟨"p", ["cs.AI"], some 1000, none, none⟩

def updFreq1000 : ProfileUpdate := ⟨none, none, some 1000, none, none⟩

/-! ## String primitives (faithful models of the Python string operations,
written over character lists so that every definition computes by structural
recursion) -/
/-- Python s.split(sep)[0] for a single-character separator: the characters
before the first occurrence of sep (the whole string if sep is absent). -/
def split_first (sep : Char) : List Char → List Char
  | [] => []
  | c :: rest => if c == sep then [] else c :: split_first sep rest

/-- Python s.split(sep)[-1] for a single-character separator: the characters
after the last occurrence of sep (the whole string if sep is absent). -/
def split_last (sep : Char) : List Char → List Char
  | [] => []
  | c :: rest => if c == sep || rest.contains sep then split_last sep rest else c :: rest

/-- Python s.split(marker)[0] for a multi-character marker: the characters
before the first occurrence of the marker. -/
def split_before (marker : List Char) : List Char → List Char
  | [] => []
  | c :: rest => if marker.isPrefixOf (c :: rest) then [] else c :: split_before marker rest

def dropLeadingWs : List Char → List Char
  | [] => []
  | c :: rest => if c.isWhitespace then dropLeadingWs rest else c :: rest

/-- Python s.strip(). -/
def trimChars (l : List Char) : List Char :=
  (dropLeadingWs ((dropLeadingWs l).reverse)).reverse

/-- Python '\n' → ' ' replacement (str.replace with single characters). -/
def replace_newlines : List Char → List Char
  | [] => []
  | c :: rest => (if c == '\n' then ' ' else c) :: replace_newlines rest

/-- The normalization .strip().replace('\n', ' ') applied to title and
summary text (arxiv_scraper.py:139,144). -/
def norm_text (t : String) : String := String.mk (replace_newlines (trimChars t.toList))

/-- Python id_text.split('/')[-1] (arxiv_scraper.py:134). -/
def last_segment (t : String) : String := String.mk (split_last '/' t.toList)

/-! ## XML model

An ElementTree element: tag, attributes, text (None for an empty element,
matching ElementTree), children.  The raw provider response is `Option
XmlNode`: none stands for bytes that ET.fromstring rejects with ParseError,
some tree for a well-formed document. -/
inductive XmlNode where
  | node (tag : String) (attrs : List (String × String)) (text : Option String)
      (children : List XmlNode)

def XmlNode.tag : XmlNode → String
  | node t _ _ _ => t

def XmlNode.attrs : XmlNode → List (String × String)
  | node _ a _ _ => a

def XmlNode.text : XmlNode → Option String
  | node _ _ t _ => t

def XmlNode.children : XmlNode → List XmlNode
  | node _ _ _ c => c

/-- entry.find('atom:tag', ns): first direct child with the tag. -/
def findChild (x : XmlNode) (t : String) : Option XmlNode :=
  x.children.find? (fun c => c.tag == t)

/-- entry.findall('atom:tag', ns): all direct children with the tag. -/
def findChildren (x : XmlNode) (t : String) : List XmlNode :=
  x.children.filter (fun c => c.tag == t)

/-- elem.get(key): attribute lookup, None when absent. -/
def attrLookup (x : XmlNode) (k : String) : Option String :=
  (x.attrs.find? (fun kv => kv.1 == k)).map (fun kv => kv.2)

/-! ## Result parser (_parse_arxiv_response, arxiv_scraper.py:115-187) -/
/-- The article dictionary built per entry.  Field id is the mandatory key
checked at arxiv_scraper.py:181; the others are present only when the
corresponding element existed, and an author's name text may itself be None. -/
structure ParsedArticle where
  id : String
  title : Option String
  summary : Option String
  authors : List (Option String)
  categories : List String
  published : Option String
  updated : Option String
  pdf_url : Option String
deriving Repr, DecidableEq

/-- Accessing elem.text on a found element: when the element is present but
its text is None, the subsequent .strip()/.split() raises AttributeError
(which _parse_arxiv_response does not catch).  An absent element is skipped. -/
def textOrRaise (x : Option XmlNode) : Except String (Option String) :=
  match x with
  | none => Except.ok none
  | some e =>
    match e.text with
    | none => Except.error "AttributeError"
    | some t => Except.ok (some t)

/-- The author loop (arxiv_scraper.py:147-153): for each author element with
a name child, name_elem.text is appended (even when it is None). -/
def parseAuthors (entry : XmlNode) : List (Option String) :=
  (findChildren entry "author").filterMap (fun a => (findChild a "name").map XmlNode.text)

/-- The category loop (arxiv_scraper.py:156-162): term attributes, skipping
absent and empty ones (Python truthiness of ''). -/
def parseCategories (entry : XmlNode) : List String :=
  (findChildren entry "category").filterMap (fun c =>
    match attrLookup c "term" with
    | none => none
    | some t => if t == "" then none else some t)

/-- The link loop (arxiv_scraper.py:175-179): href of the first link child
whose type attribute equals application/pdf. -/
def parsePdfUrl (entry : XmlNode) : Option String :=
  ((findChildren entry "link").find? (fun l =>
    attrLookup l "type" == some "application/pdf")).bind (fun l => attrLookup l "href")

def buildParsed (entry : XmlNode) (idTxt titleTxt sumTxt : Option String) :
    Option ParsedArticle :=
  match idTxt with
  | none => none
  | some t =>
    some ⟨last_segment t, titleTxt.map norm_text, sumTxt.map norm_text,
      parseAuthors entry, parseCategories entry,
      (findChild entry "published").bind XmlNode.text,
      (findChild entry "updated").bind XmlNode.text,
      parsePdfUrl entry⟩

/-- One iteration of the entry loop.  id, title and summary texts are read in
source order (each can raise); the entry is kept only when an id was
extractable. -/
def parseEntry (entry : XmlNode) : Except String (Option ParsedArticle) :=
  match textOrRaise (findChild entry "id") with
  | Except.error e1 => Except.error e1
  | Except.ok idTxt =>
    match textOrRaise (findChild entry "title") with
    | Except.error e2 => Except.error e2
    | Except.ok titleTxt =>
      match textOrRaise (findChild entry "summary") with
      | Except.error e3 => Except.error e3
      | Except.ok sumTxt => Except.ok (buildParsed entry idTxt titleTxt sumTxt)

def parseEntries : List XmlNode → Except String (List ParsedArticle)
  | [] => Except.ok []
  | e :: rest =>
    match parseEntry e with
    | Except.error msg => Except.error msg
    | Except.ok a =>
      match parseEntries rest with
      | Except.error msg => Except.error msg
      | Except.ok others =>
        match a with
        | none => Except.ok others
        | some art => Except.ok (art :: others)

/-- _parse_arxiv_response: ParseError from fromstring is caught and yields
the empty list; any other exception raised in the entry loop propagates. -/
def parse_arxiv_response : Option XmlNode → Except String (List ParsedArticle)
  | none => Except.ok []
  | some root => parseEntries (findChildren root "entry")

/-! ## Query builder and search (search_articles, arxiv_scraper.py:19-113) -/
/-- The hardcoded category sniffing list (arxiv_scraper.py:38). -/
def category_code_starters : List String :=
  ["cs.", "math.", "physics.", "astro-ph", "cond-mat", "quant-ph", "stat."]

def is_category_topic (t : String) : Bool :=
  (t.toList.contains '.' &&
    category_code_starters.any (fun s => s.toList.isPrefixOf t.toList)) ||
  ["cs", "math", "physics"].contains t

def quoteStr (s : String) : String := "\"" ++ s ++ "\""

/-- The undated query string built from the topics (arxiv_scraper.py:33-61):
one OR-joined cat clause for the category terms, one ti/abs clause per
keyword, OR-joined, falling back to "all". -/
def base_query (topics : List String) : String :=
  let cats := topics.filter is_category_topic
  let kws := topics.filter (fun t => !(is_category_topic t))
  let parts :=
    (if cats.isEmpty then [] else
      ["(" ++ join_with " OR " (cats.map (fun c => "cat:" ++ quoteStr c)) ++ ")"]) ++
    kws.map (fun k => "(ti:" ++ quoteStr k ++ " OR abs:" ++ quoteStr k ++ ")")
  if parts.isEmpty then "all" else join_with " OR " parts

def date_marker : String := " AND submittedDate:"

/-- The dated query (arxiv_scraper.py:64-65); start_date stands for the
strftime-rendered now − days_back. -/
def dated_query (topics : List String) (start_date : String) : String :=
  base_query topics ++ date_marker ++ "[" ++ start_date ++ "* TO *]"

/-- query.split(' AND submittedDate:')[0] (arxiv_scraper.py:95). -/
def strip_date_bound (q : String) : String :=
  String.mk (split_before date_marker.toList q.toList)

structure SearchOutcome where
  calls : List (String × Nat)
  result : Except String (List ParsedArticle)

/-- search_articles (arxiv_scraper.py:19-113).  `fetch` is the HTTP oracle,
keyed by (search_query, max_results); an error value is a raised
RequestException.  The try/except returns [] on RequestException from either
request; a parse-time exception (AttributeError) is not caught and
propagates; zero parsed articles with a window under a year triggers exactly
one retry with the date bound split off and the result cap reduced to
min(max_results, 20), whose outcome is returned.  `calls` records every HTTP
request issued. -/
def search_articles (fetch : String → Nat → Except Unit (Option XmlNode))
    (topics : List String) (max_results days_back : Nat) (start_date : String) :
    SearchOutcome :=
  let query := dated_query topics start_date
  match fetch query max_results with
  | Except.error _ => ⟨[(query, max_results)], Except.ok []⟩
  | Except.ok raw =>
    match parse_arxiv_response raw with
    | Except.error msg => ⟨[(query, max_results)], Except.error msg⟩
    | Except.ok articles =>
      if articles.length = 0 ∧ days_back < 365 then
        match fetch (strip_date_bound query) (min max_results 20) with
        | Except.error _ =>
          ⟨[(query, max_results), (strip_date_bound query, min max_results 20)],
            Except.ok []⟩
        | Except.ok raw2 =>
          ⟨[(query, max_results), (strip_date_bound query, min max_results 20)],
            parse_arxiv_response raw2⟩
      else ⟨[(query, max_results)], Except.ok articles⟩

/-! ## Artifact download naming (download_article, arxiv_scraper.py:189-217) -/
/-- clean_id = arxiv_id.split('v')[0] (arxiv_scraper.py:205). -/
def clean_arxiv_id (arxiv_id : String) : String :=
  String.mk (split_first 'v' arxiv_id.toList)

/-- The artifact filename f"{clean_id}.pdf" (arxiv_scraper.py:211), also the
basename of the download URL and of the destination path. -/
def download_article_filename (arxiv_id : String) : String :=
  clean_arxiv_id arxiv_id ++ ".pdf"

/-- Modelled from the spec's words, for comparison with the code: the
canonical identifier is the external identifier with a trailing version
suffix matching v followed by digits removed, and nothing else. -/
def spec_canonical_id (s : String) : String :=
  let r := s.toList.reverse
  let ds := r.takeWhile (fun c => c.isDigit)
  if ds.isEmpty then s
  else
    match r.drop ds.length with
    | 'v' :: base => String.mk base.reverse
    | _ => s

/-! ## Claim C8: parser totality -/
/-- Whether reading elem.text on this optional element is exception-free. -/
def text_present (x : Option XmlNode) : Bool :=
  match x with
  | none => true
  | some e => e.text.isSome

/-- An entry none of whose id/title/summary elements is present with None
text, so the entry loop cannot raise on it. -/
def entry_text_safe (entry : XmlNode) : Bool :=
  text_present (findChild entry "id") && text_present (findChild entry "title") &&
    text_present (findChild entry "summary")

def goodEntry : XmlNode :=
  XmlNode.node "entry" [] none
    [XmlNode.node "id" [] (some "http://arxiv.org/abs/2301.00001v2") [],
     XmlNode.node "title" [] (some "T") [],
     XmlNode.node "summary" [] (some "S") [],
     XmlNode.node "author" [] none [XmlNode.node "name" [] (some "A") []],
     XmlNode.node "category" [("term", "cs.AI")] none []]

def goodFeed : XmlNode := XmlNode.node "feed" [] none [goodEntry]

/-- A provider that answers every request with a well-formed feed holding no
entries. -/
def fetchEmptyFeed : String → Nat → Except Unit (Option XmlNode) :=
  fun _ _ => Except.ok (some (XmlNode.node "feed" [] none []))

/-! ## Helper lemmas about the ingest loop -/
lemma inCatalog_append (c d : List CatalogEntry) (aid : String) :
    inCatalog (c ++ d) aid = (inCatalog c aid || inCatalog d aid) := by
  simp [inCatalog, List.any_append]

lemma runLoop_step_known (download : String → String → Option String) (dp : String)
    (pid : Nat) (a : Article) (rest : List Article) (count : Nat)
    (catalog news : List CatalogEntry) (trace : List Event)
    (h : inCatalog catalog a.id = true) :
    runLoop download dp pid (a :: rest) count catalog news trace =
      runLoop download dp pid rest count catalog news
        (trace ++ [Event.processed a.id, Event.skippedKnown a.id]) := by
  simp [runLoop, h]

lemma runLoop_step_fail (download : String → String → Option String) (dp : String)
    (pid : Nat) (a : Article) (rest : List Article) (count : Nat)
    (catalog news : List CatalogEntry) (trace : List Event)
    (h : inCatalog catalog a.id = false) (hd : download a.id dp = none) :
    runLoop download dp pid (a :: rest) count catalog news trace =
      runLoop download dp pid rest count catalog news
        (trace ++ [Event.processed a.id]) := by
  simp [runLoop, h, hd]

lemma runLoop_step_add (download : String → String → Option String) (dp : String)
    (pid : Nat) (a : Article) (rest : List Article) (count : Nat)
    (catalog news : List CatalogEntry) (trace : List Event) (fp : String)
    (h : inCatalog catalog a.id = false) (hd : download a.id dp = some fp) :
    runLoop download dp pid (a :: rest) count catalog news trace =
      runLoop download dp pid rest (count + 1) (catalog ++ [mkEntry a fp pid])
        (news ++ [mkEntry a fp pid])
        (trace ++ [Event.processed a.id, Event.added a.id]) := by
  simp [runLoop, h, hd]

lemma runLoop_catalog_extend (download : String → String → Option String) (dp : String)
    (pid : Nat) (arts : List Article) :
    ∀ count catalog news trace, ∃ ext,
      (runLoop download dp pid arts count catalog news trace).catalog = catalog ++ ext := by
  induction arts with
  | nil => intro count catalog news trace; exact ⟨[], by simp [runLoop]⟩
  | cons a rest ih =>
    intro count catalog news trace
    cases h : inCatalog catalog a.id with
    | true =>
      rw [runLoop_step_known download dp pid a rest count catalog news trace h]
      exact ih count catalog news (trace ++ [Event.processed a.id, Event.skippedKnown a.id])
    | false =>
      cases hd : download a.id dp with
      | none =>
        rw [runLoop_step_fail download dp pid a rest count catalog news trace h hd]
        exact ih count catalog news (trace ++ [Event.processed a.id])
      | some fp =>
        rw [runLoop_step_add download dp pid a rest count catalog news trace fp h hd]
        obtain ⟨ext, hext⟩ := ih (count + 1) (catalog ++ [mkEntry a fp pid])
          (news ++ [mkEntry a fp pid]) (trace ++ [Event.processed a.id, Event.added a.id])
        refine ⟨mkEntry a fp pid :: ext, ?_⟩
        rw [hext]
        simp

lemma runLoop_covers (download : String → String → Option String) (dp : String)
    (pid : Nat) (arts : List Article) :
    ∀ count catalog news trace, ∀ a ∈ arts,
      inCatalog (runLoop download dp pid arts count catalog news trace).catalog a.id = true ∨
      download a.id dp = none := by
  induction arts with
  | nil => intro _ _ _ _ a ha; cases ha
  | cons b rest ih =>
    intro count catalog news trace a ha
    rcases List.mem_cons.mp ha with rfl | hmem
    · cases h : inCatalog catalog a.id with
      | true =>
        left
        rw [runLoop_step_known download dp pid a rest count catalog news trace h]
        obtain ⟨ext, hext⟩ := runLoop_catalog_extend download dp pid rest count catalog news
          (trace ++ [Event.processed a.id, Event.skippedKnown a.id])
        rw [hext, inCatalog_append, h]
        simp
      | false =>
        cases hd : download a.id dp with
        | none => right; rfl
        | some fp =>
          left
          rw [runLoop_step_add download dp pid a rest count catalog news trace fp h hd]
          obtain ⟨ext, hext⟩ := runLoop_catalog_extend download dp pid rest (count + 1)
            (catalog ++ [mkEntry a fp pid]) (news ++ [mkEntry a fp pid])
            (trace ++ [Event.processed a.id, Event.added a.id])
          rw [hext, inCatalog_append, inCatalog_append]
          have hone : inCatalog [mkEntry a fp pid] a.id = true := by simp [inCatalog, mkEntry]
          rw [hone]
          simp
    · cases h : inCatalog catalog b.id with
      | true =>
        rw [runLoop_step_known download dp pid b rest count catalog news trace h]
        exact ih count catalog news _ a hmem
      | false =>
        cases hd : download b.id dp with
        | none =>
          rw [runLoop_step_fail download dp pid b rest count catalog news trace h hd]
          exact ih count catalog news _ a hmem
        | some fp =>
          rw [runLoop_step_add download dp pid b rest count catalog news trace fp h hd]
          exact ih (count + 1) (catalog ++ [mkEntry b fp pid]) (news ++ [mkEntry b fp pid])
            _ a hmem

lemma runLoop_noop (download : String → String → Option String) (dp : String)
    (pid : Nat) (arts : List Article) :
    ∀ count catalog news trace,
      (∀ a ∈ arts, inCatalog catalog a.id = true ∨ download a.id dp = none) →
      (runLoop download dp pid arts count catalog news trace).count = count ∧
      (runLoop download dp pid arts count catalog news trace).catalog = catalog ∧
      (runLoop download dp pid arts count catalog news trace).newEntries = news := by
  induction arts with
  | nil => intro count catalog news trace _; exact ⟨rfl, rfl, rfl⟩
  | cons a rest ih =>
    intro count catalog news trace hall
    have htail : ∀ b ∈ rest, inCatalog catalog b.id = true ∨ download b.id dp = none :=
      fun b hb => hall b (List.mem_cons_of_mem a hb)
    rcases hall a (List.mem_cons_self a rest) with h | h
    · rw [runLoop_step_known download dp pid a rest count catalog news trace h]
      exact ih count catalog news _ htail
    · cases hc : inCatalog catalog a.id with
      | true =>
        rw [runLoop_step_known download dp pid a rest count catalog news trace hc]
        exact ih count catalog news _ htail
      | false =>
        rw [runLoop_step_fail download dp pid a rest count catalog news trace hc h]
        exact ih count catalog news _ htail

/-! ## Claim C1 -/
/-- Claim C1: Dedup idempotence.  For every profile and every fixed provider
response, running run_search_profile a second time immediately after a
completed first run with the unchanged response (and the same deterministic
download oracle) returns a new-item count of 0 and leaves the catalog
unchanged. -/
theorem dedup_idempotence (download : String → String → Option String)
    (now now2 : Nat) (profile : Profile) (articles : List Article)
    (catalog : List CatalogEntry) :
    (run_search_profile download now2
        (run_search_profile download now profile articles catalog).profile articles
        (run_search_profile download now profile articles catalog).catalog).count = 0 ∧
    (run_search_profile download now2
        (run_search_profile download now profile articles catalog).profile articles
        (run_search_profile download now profile articles catalog).catalog).catalog =
      (run_search_profile download now profile articles catalog).catalog := by
  have hcov := runLoop_covers download profile.download_path profile.id articles
    0 catalog [] []
  have hnoop := runLoop_noop download profile.download_path profile.id articles
    0 (runLoop download profile.download_path profile.id articles 0 catalog [] []).catalog
    [] [] (by intro a ha; exact hcov a ha)
  exact ⟨hnoop.1, by simp [run_search_profile]; exact hnoop.2.1⟩

/-! ## Claim C5: last-run timestamp -/
lemma runLoop_trace_ext (download : String → String → Option String) (dp : String)
    (pid : Nat) (arts : List Article) :
    ∀ count catalog news trace, ∃ ext,
      (runLoop download dp pid arts count catalog news trace).trace = trace ++ ext ∧
      ext.countP (fun e => e.isLastRunSet) = 0 ∧
      ∀ a ∈ arts, Event.processed a.id ∈ ext := by
  induction arts with
  | nil =>
    intro count catalog news trace
    exact ⟨[], by simp [runLoop]⟩
  | cons a rest ih =>
    intro count catalog news trace
    cases h : inCatalog catalog a.id with
    | true =>
      rw [runLoop_step_known download dp pid a rest count catalog news trace h]
      obtain ⟨ext, hext, hcnt, hmem⟩ := ih count catalog news
        (trace ++ [Event.processed a.id, Event.skippedKnown a.id])
      refine ⟨[Event.processed a.id, Event.skippedKnown a.id] ++ ext, ?_, ?_, ?_⟩
      · rw [hext]; simp
      · rw [List.countP_append, hcnt]; rfl
      · intro b hb
        rcases List.mem_cons.mp hb with rfl | hb2
        · simp
        · simp [hmem b hb2]
    | false =>
      cases hd : download a.id dp with
      | none =>
        rw [runLoop_step_fail download dp pid a rest count catalog news trace h hd]
        obtain ⟨ext, hext, hcnt, hmem⟩ := ih count catalog news
          (trace ++ [Event.processed a.id])
        refine ⟨[Event.processed a.id] ++ ext, ?_, ?_, ?_⟩
        · rw [hext]; simp
        · rw [List.countP_append, hcnt]; rfl
        · intro b hb
          rcases List.mem_cons.mp hb with rfl | hb2
          · simp
          · simp [hmem b hb2]
      | some fp =>
        rw [runLoop_step_add download dp pid a rest count catalog news trace fp h hd]
        obtain ⟨ext, hext, hcnt, hmem⟩ := ih (count + 1) (catalog ++ [mkEntry a fp pid])
          (news ++ [mkEntry a fp pid]) (trace ++ [Event.processed a.id, Event.added a.id])
        refine ⟨[Event.processed a.id, Event.added a.id] ++ ext, ?_, ?_, ?_⟩
        · rw [hext]; simp
        · rw [List.countP_append, hcnt]; rfl
        · intro b hb
          rcases List.mem_cons.mp hb with rfl | hb2
          · simp
          · simp [hmem b hb2]

/-- Claim C5: Unconditional last-run update.  Every invocation of
run_search_profile sets the profile's last-run timestamp to the current time,
and it does so exactly once, after the full result list has been processed;
provided the clock has advanced past any previous last-run value, the
timestamp strictly increases. -/
theorem last_run_unconditional (download : String → String → Option String)
    (now : Nat) (profile : Profile) (articles : List Article)
    (catalog : List CatalogEntry)
    (h : ∀ t, profile.last_run = some t → t < now) :
    (run_search_profile download now profile articles catalog).profile.last_run = some now ∧
    optLt profile.last_run
      (run_search_profile download now profile articles catalog).profile.last_run ∧
    ∃ pre,
      (run_search_profile download now profile articles catalog).trace =
        pre ++ [Event.lastRunSet now] ∧
      pre.countP (fun e => e.isLastRunSet) = 0 ∧
      ∀ a ∈ articles, Event.processed a.id ∈ pre := by
  refine ⟨rfl, ?_, ?_⟩
  · cases hlr : profile.last_run with
    | none => simp [run_search_profile, optLt]
    | some t =>
      have := h t hlr
      simpa [run_search_profile, optLt] using this
  · obtain ⟨ext, hext, hcnt, hmem⟩ := runLoop_trace_ext download profile.download_path
      profile.id articles 0 catalog [] []
    refine ⟨ext, ?_, hcnt, hmem⟩
    simp only [run_search_profile]
    rw [hext]
    simp

/-- Claim C5 witness: the theorem applied at a concrete run (no previous
last-run, clock at 5) yields the unconditional update and strict increase. -/
theorem last_run_unconditional_witness :
    (run_search_profile (fun _ _ => none) 5
        { id := 1, name := "p", topics := ["cs.AI"], frequency_hours := 24,
          download_path := "/app/downloads", is_active := true, last_run := none }
        [] []).profile.last_run = some 5 ∧
    optLt (none : Option Nat)
      (run_search_profile (fun _ _ => none) 5
        { id := 1, name := "p", topics := ["cs.AI"], frequency_hours := 24,
          download_path := "/app/downloads", is_active := true, last_run := none }
        [] []).profile.last_run := by
  have h := last_run_unconditional (fun _ _ => none) 5
    { id := 1, name := "p", topics := ["cs.AI"], frequency_hours := 24,
      download_path := "/app/downloads", is_active := true, last_run := none }
    [] [] (by intro t ht; simp at ht)
  exact ⟨h.1, h.2.1⟩

lemma commit_batch_conflict (batch : List CatalogEntry) :
    ∀ c, (∃ e ∈ batch, inCatalog c e.arxiv_id = true) →
      isError (commit_batch c batch) = true := by
  induction batch with
  | nil => intro c h; obtain ⟨e, he, _⟩ := h; cases he
  | cons b rest ih =>
    intro c h
    by_cases hb : inCatalog c b.arxiv_id = true
    · simp [commit_batch, insert_unique, hb, isError]
    · have hb' : inCatalog c b.arxiv_id = false := by
        cases hx : inCatalog c b.arxiv_id with
        | true => exact absurd hx hb
        | false => rfl
      obtain ⟨e, he, hce⟩ := h
      rcases List.mem_cons.mp he with rfl | hrest
      · exact absurd hce hb
      · have hstep : commit_batch c (b :: rest) = commit_batch (c ++ [b]) rest := by
          simp [commit_batch, insert_unique, hb']
        rw [hstep]
        refine ih (c ++ [b]) ⟨e, hrest, ?_⟩
        rw [inCatalog_append, hce]
        simp

lemma mem_idsOf_iff (c : List CatalogEntry) (aid : String) :
    inCatalog c aid = true ↔ aid ∈ idsOf c := by
  simp [inCatalog, idsOf, List.any_eq_true]

lemma commit_batch_nodup (batch : List CatalogEntry) :
    ∀ c r, (idsOf c).Nodup → commit_batch c batch = Except.ok r → (idsOf r).Nodup := by
  induction batch with
  | nil =>
    intro c r hc hok
    simp [commit_batch] at hok
    exact hok ▸ hc
  | cons b rest ih =>
    intro c r hc hok
    cases hx : inCatalog c b.arxiv_id with
    | true => simp [commit_batch, insert_unique, hx] at hok
    | false =>
      have hstep : commit_batch c (b :: rest) = commit_batch (c ++ [b]) rest := by
        simp [commit_batch, insert_unique, hx]
      rw [hstep] at hok
      refine ih (c ++ [b]) r ?_ hok
      have hnotin : b.arxiv_id ∉ idsOf c := by
        intro hmem
        rw [← mem_idsOf_iff] at hmem
        rw [hmem] at hx
        cases hx
      simp [idsOf] at hc ⊢
      simp [idsOf] at hnotin
      exact List.Nodup.append hc (List.nodup_singleton _)
        (by simpa [List.disjoint_singleton] using hnotin)

/-- Claim C2 counterexample.  A run whose pre-check snapshot is empty but
whose commit hits a catalog already holding the same external identifier does
NOT behave like a pre-check hit: the pre-check-hit run returns success with
count 0, while the conflicting commit surfaces an IntegrityError to the
caller. -/
theorem duplicate_commit_counterexample :
    run_search_profile_commit (fun aid dp => some (dp ++ "/" ++ aid ++ ".pdf")) 7
        { id := 2, name := "p2", topics := ["cs.AI"], frequency_hours := 24,
          download_path := "/app/downloads", is_active := true, last_run := none }
        [{ id := "2301.00001", title := "T", authors := ["A"], summary := "S",
           categories := ["cs.AI"] }]
        []
        [{ arxiv_id := "2301.00001", title := "T0", authors := "A0", abstract := "S0",
           subjects := "cs.AI", file_path := "/app/downloads/2301.00001.pdf",
           profile_id := 1 }] =
      Except.error integrity_error_msg ∧
    run_search_profile_commit (fun aid dp => some (dp ++ "/" ++ aid ++ ".pdf")) 7
        { id := 2, name := "p2", topics := ["cs.AI"], frequency_hours := 24,
          download_path := "/app/downloads", is_active := true, last_run := none }
        [{ id := "2301.00001", title := "T", authors := ["A"], summary := "S",
           categories := ["cs.AI"] }]
        [{ arxiv_id := "2301.00001", title := "T0", authors := "A0", abstract := "S0",
           subjects := "cs.AI", file_path := "/app/downloads/2301.00001.pdf",
           profile_id := 1 }]
        [{ arxiv_id := "2301.00001", title := "T0", authors := "A0", abstract := "S0",
           subjects := "cs.AI", file_path := "/app/downloads/2301.00001.pdf",
           profile_id := 1 }] =
      Except.ok (0,
        [{ arxiv_id := "2301.00001", title := "T0", authors := "A0", abstract := "S0",
           subjects := "cs.AI", file_path := "/app/downloads/2301.00001.pdf",
           profile_id := 1 }]) := by
  constructor <;> rfl

/-- Claim C2 amended: a uniqueness violation on commit is NOT absorbed — it
surfaces as an error to the caller of run_search_profile — but the catalog
state is not corrupted: the transaction aborts, and any commit that does
succeed preserves uniqueness of external identifiers. -/
theorem duplicate_commit_amended (download : String → String → Option String)
    (now : Nat) (profile : Profile) (articles : List Article)
    (sessionCat persistentCat : List CatalogEntry)
    (hU : (idsOf persistentCat).Nodup) :
    ((∃ e ∈ (run_search_profile download now profile articles sessionCat).newEntries,
        inCatalog persistentCat e.arxiv_id = true) →
      isError (run_search_profile_commit download now profile articles
        sessionCat persistentCat) = true) ∧
    (∀ c r, run_search_profile_commit download now profile articles
        sessionCat persistentCat = Except.ok (c, r) → (idsOf r).Nodup) := by
  constructor
  · intro hconf
    have herr := commit_batch_conflict
      (run_search_profile download now profile articles sessionCat).newEntries
      persistentCat hconf
    simp only [run_search_profile_commit]
    cases hcb : commit_batch persistentCat
        (run_search_profile download now profile articles sessionCat).newEntries with
    | error msg => simp [isError]
    | ok P => rw [hcb] at herr; simp [isError] at herr
  · intro c r hok
    simp only [run_search_profile_commit] at hok
    cases hcb : commit_batch persistentCat
        (run_search_profile download now profile articles sessionCat).newEntries with
    | error msg => rw [hcb] at hok; cases hok
    | ok P =>
      rw [hcb] at hok
      have : P = r := by cases hok; rfl
      exact this ▸ commit_batch_nodup _ persistentCat P hU hcb

/-- Claim C2 amended witness: at the concrete conflicting run the amended
theorem yields the surfaced error. -/
theorem duplicate_commit_amended_witness :
    isError (run_search_profile_commit (fun aid dp => some (dp ++ "/" ++ aid ++ ".pdf")) 7
        { id := 2, name := "p2", topics := ["cs.AI"], frequency_hours := 24,
          download_path := "/app/downloads", is_active := true, last_run := none }
        [{ id := "2301.00001", title := "T", authors := ["A"], summary := "S",
           categories := ["cs.AI"] }]
        []
        [{ arxiv_id := "2301.00001", title := "T0", authors := "A0", abstract := "S0",
           subjects := "cs.AI", file_path := "/app/downloads/2301.00001.pdf",
           profile_id := 1 }]) = true :=
  (duplicate_commit_amended (fun aid dp => some (dp ++ "/" ++ aid ++ ".pdf")) 7
      { id := 2, name := "p2", topics := ["cs.AI"], frequency_hours := 24,
        download_path := "/app/downloads", is_active := true, last_run := none }
      [{ id := "2301.00001", title := "T", authors := ["A"], summary := "S",
         categories := ["cs.AI"] }]
      []
      [{ arxiv_id := "2301.00001", title := "T0", authors := "A0", abstract := "S0",
         subjects := "cs.AI", file_path := "/app/downloads/2301.00001.pdf",
         profile_id := 1 }]
      (by decide)).1
    ⟨{ arxiv_id := "2301.00001", title := "T", authors := "A",
       abstract := "S", subjects := "cs.AI",
       file_path := "/app/downloads/2301.00001.pdf", profile_id := 2 },
     by decide, by decide⟩

/-! ## Claim C3 -/
/-- Claim C3 counterexample: a single scheduled run that raises is NOT caught
by the driver loop — schedule_runner's tick surfaces the exception, which
terminates the background thread, contradicting the claim that the driver
survives every run failure. -/
theorem schedule_runner_counterexample :
    schedule_runner_tick [some "ValueError: boom"] =
      Except.error "ValueError: boom" := rfl

/-- Claim C3 amended: schedule_runner has no try/except, so any exception
raised inside a timer firing escapes the driver loop body (terminating the
thread); the driver survives a tick exactly when no due job raises. -/
theorem schedule_runner_amended :
    (∀ (jobs : List (Option String)) (e : String), some e ∈ jobs →
      isError (schedule_runner_tick jobs) = true) ∧
    (∀ jobs : List (Option String), (∀ j ∈ jobs, j = none) →
      schedule_runner_tick jobs = Except.ok ()) := by
  constructor
  · intro jobs e hmem
    induction jobs with
    | nil => cases hmem
    | cons j rest ih =>
      rcases List.mem_cons.mp hmem with rfl | hrest
      · rfl
      · cases j with
        | none => exact ih hrest
        | some msg => rfl
  · intro jobs hall
    induction jobs with
    | nil => rfl
    | cons j rest ih =>
      have hj : j = none := hall j (List.mem_cons_self j rest)
      subst hj
      exact ih (fun b hb => hall b (List.mem_cons_of_mem none hb))

/-- Claim C3 amended witness: a raising job makes the tick fail; a tick whose
jobs all complete returns normally. -/
theorem schedule_runner_amended_witness :
    isError (schedule_runner_tick [some "ValueError: boom"]) = true ∧
    schedule_runner_tick [none, none] = Except.ok () :=
  ⟨schedule_runner_amended.1 [some "ValueError: boom"] "ValueError: boom" (by decide),
   schedule_runner_amended.2 [none, none] (by decide)⟩

/-! ## Claim C4 -/
/-- Claim C4 counterexample: with profile 1 scheduled, updating it to
inactive leaves its timer installed (schedule_profile returns before
clearing), and deleting it also leaves the timer installed (the DELETE
handler never touches the scheduler).  The claimed transition to Unscheduled
does not happen. -/
theorem unschedule_counterexample :
    has_timer (api_profile_update pML updInactive (schedule_profile pML [])).2 1 = true ∧
    has_timer (api_profile_delete stML 1 (schedule_profile pML [])).2 1 = true := by
  constructor <;> rfl

/-- Claim C4 amended: updating a profile to inactive, or deleting it, leaves
the timer registry exactly as it was — the old timer is not cancelled and its
scheduled invocations continue; only re-registration of an active profile
clears the previous timer. -/
theorem unschedule_amended :
    (∀ (p : Profile) (u : ProfileUpdate) (jobs : List SchedJob),
      u.is_active = some false → (api_profile_update p u jobs).2 = jobs) ∧
    (∀ (st : AppState) (pid : Nat) (jobs : List SchedJob),
      (api_profile_delete st pid jobs).2 = jobs) := by
  constructor
  · intro p u jobs hu
    simp [api_profile_update, schedule_profile, apply_update, hu]
  · intro st pid jobs
    rfl

/-- Claim C4 amended witness: the amended theorem at the concrete scheduled
profile: both operations return the registry unchanged. -/
theorem unschedule_amended_witness :
    (api_profile_update pML updInactive [jobML]).2 = [jobML] ∧
    (api_profile_delete stML 1 [jobML]).2 = [jobML] :=
  ⟨unschedule_amended.1 pML updInactive [jobML] rfl,
   unschedule_amended.2 stML 1 [jobML]⟩

/-- Claim C9: the profile API is claimed to keep frequency_hours within
[MIN_FREQUENCY_HOURS, MAX_FREQUENCY_HOURS], but neither the POST nor the PUT
handler consults these Config constants: a request with frequency_hours =
1000 is stored as 1000, outside the configured range, by both handlers. -/
theorem frequency_bounds_code_bug :
    (api_profiles_post 1 createFreq1000).frequency_hours = 1000 ∧
    (apply_update pML updFreq1000).frequency_hours = 1000 ∧
    ¬ (MIN_FREQUENCY_HOURS ≤ 1000 ∧ (1000 : Int) ≤ MAX_FREQUENCY_HOURS) := by
  refine ⟨rfl, rfl, ?_⟩
  intro h
  exact absurd h.2 (by decide)

/-! ## Claim C10: delete frame property -/
/-- Claim C10: deleting a profile removes only that profile's row; the
catalog table is untouched, every entry survives, and entries referencing the
deleted profile keep their stored profile_id even though no profile with that
id remains. -/
theorem delete_frame (st : AppState) (pid : Nat) (jobs : List SchedJob) :
    (api_profile_delete st pid jobs).1.articles = st.articles ∧
    (api_profile_delete st pid jobs).1.profiles =
      st.profiles.filter (fun p => p.id ≠ pid) ∧
    (∀ p ∈ (api_profile_delete st pid jobs).1.profiles, p.id ≠ pid) ∧
    (∀ e ∈ st.articles, e ∈ (api_profile_delete st pid jobs).1.articles) := by
  refine ⟨rfl, rfl, ?_, fun e he => he⟩
  intro p hp
  have h2 := (List.mem_filter.mp hp).2
  simpa using h2

/-- Claim C10 witness: deleting profile 1 keeps the article that references
profile 1 and leaves no profile with id 1. -/
theorem delete_frame_witness :
    (api_profile_delete stML 1 []).1.articles = stML.articles ∧
    (api_profile_delete stML 1 []).1.profiles = [] :=
  ⟨(delete_frame stML 1 []).1, ((delete_frame stML 1 []).2.1).trans (by decide)⟩

/-! ## Claim C7: version-suffix stripping -/
lemma split_first_of_not_mem (sep : Char) (b : List Char) (h : sep ∉ b) :
    split_first sep b = b := by
  induction b with
  | nil => rfl
  | cons c bs ih =>
    simp only [List.mem_cons, not_or] at h
    have hc : (c == sep) = false := by
      simp only [beq_eq_false_iff_ne]
      exact fun hh => h.1 hh.symm
    simp [split_first, hc, ih h.2]

lemma split_first_append (sep : Char) (t : List Char) (b : List Char) (h : sep ∉ b) :
    split_first sep (b ++ sep :: t) = b := by
  induction b with
  | nil => simp [split_first]
  | cons c bs ih =>
    simp only [List.mem_cons, not_or] at h
    have hc : (c == sep) = false := by
      simp only [beq_eq_false_iff_ne]
      exact fun hh => h.1 hh.symm
    simp [split_first, hc, ih h.2]

/-- Claim C7 counterexample: download_article does not strip only a trailing
v-number suffix — it truncates at the first letter v.  The historical
external identifier solv-int/9701001 has no trailing version suffix, so the
claim requires filename solv-int/9701001.pdf, but the code produces
sol.pdf. -/
theorem version_strip_counterexample :
    download_article_filename "solv-int/9701001" = "sol.pdf" ∧
    spec_canonical_id "solv-int/9701001" ++ ".pdf" = "solv-int/9701001.pdf" ∧
    ("sol.pdf" : String) ≠ "solv-int/9701001.pdf" := by
  refine ⟨rfl, rfl, by decide⟩

/-- Claim C7 amended: download_article truncates the identifier at its first
letter v; whenever the identifier contains no v before the version suffix
(as in every standard new-style identifier, e.g. 2301.00001v2), this
coincides with stripping the trailing version suffix, and an identifier with
no v at all is used unchanged, the artifact being named canonical-id.pdf. -/
theorem version_strip_amended (base tail : String) (h : 'v' ∉ base.toList) :
    download_article_filename (base ++ "v" ++ tail) = base ++ ".pdf" ∧
    download_article_filename base = base ++ ".pdf" := by
  constructor
  · have hdata : (base ++ "v" ++ tail).toList = base.toList ++ 'v' :: tail.toList := by
      simp [String.toList, String.data_append]
    simp only [download_article_filename, clean_arxiv_id, hdata]
    rw [split_first_append 'v' tail.toList base.toList h]
    rfl
  · simp only [download_article_filename, clean_arxiv_id]
    rw [split_first_of_not_mem 'v' base.toList h]
    rfl

/-- Claim C7 amended witness: at the spec's own example the amended theorem
gives external id 2301.00001v2 the artifact filename 2301.00001.pdf. -/
theorem version_strip_amended_witness :
    download_article_filename ("2301.00001" ++ "v" ++ "2") = "2301.00001" ++ ".pdf" ∧
    download_article_filename "2301.00001" = "2301.00001" ++ ".pdf" :=
  version_strip_amended "2301.00001" "2" (by decide)

lemma textOrRaise_ok_of_present (x : Option XmlNode) (h : text_present x = true) :
    ∃ y, textOrRaise x = Except.ok y := by
  cases x with
  | none => exact ⟨none, rfl⟩
  | some e =>
    cases ht : e.text with
    | none => simp [text_present, ht] at h
    | some t => exact ⟨some t, by simp [textOrRaise, ht]⟩

lemma parseEntry_ok_of_safe (e : XmlNode) (h : entry_text_safe e = true) :
    ∃ r, parseEntry e = Except.ok r := by
  simp only [entry_text_safe, Bool.and_eq_true] at h
  obtain ⟨⟨h1, h2⟩, h3⟩ := h
  obtain ⟨y1, hy1⟩ := textOrRaise_ok_of_present _ h1
  obtain ⟨y2, hy2⟩ := textOrRaise_ok_of_present _ h2
  obtain ⟨y3, hy3⟩ := textOrRaise_ok_of_present _ h3
  exact ⟨buildParsed e y1 y2 y3, by simp [parseEntry, hy1, hy2, hy3]⟩

lemma parseEntries_ok_of_safe (entries : List XmlNode)
    (hall : ∀ e ∈ entries, entry_text_safe e = true) :
    isError (parseEntries entries) = false := by
  induction entries with
  | nil => rfl
  | cons e rest ih =>
    obtain ⟨r, hr⟩ := parseEntry_ok_of_safe e (hall e (List.mem_cons_self e rest))
    have hrest := ih (fun b hb => hall b (List.mem_cons_of_mem e hb))
    simp only [parseEntries, hr]
    cases hrec : parseEntries rest with
    | error msg => rw [hrec] at hrest; simp [isError] at hrest
    | ok others =>
      cases r with
      | none => rfl
      | some art => rfl

/-- Claim C8 counterexample: a well-formed response whose entry carries an
empty id element makes id_elem.text None, so id_elem.text.split raises an
AttributeError that _parse_arxiv_response does not catch — the parser does
not return a list for this input, contradicting totality. -/
theorem parser_totality_counterexample :
    parse_arxiv_response (some (XmlNode.node "feed" [] none
      [XmlNode.node "entry" [] none [XmlNode.node "id" [] none []]])) =
      Except.error "AttributeError" := rfl

/-- Claim C8 amended: unparseable input still yields the empty list (the
ParseError is caught), and the parser returns an ordered list without raising
for every well-formed input whose entries never expose a present id, title or
summary element with None text; an entry violating that raises an uncaught
AttributeError (see the counterexample). -/
theorem parser_totality_amended :
    parse_arxiv_response none = Except.ok [] ∧
    ∀ root : XmlNode, (∀ e ∈ findChildren root "entry", entry_text_safe e = true) →
      isError (parse_arxiv_response (some root)) = false := by
  refine ⟨rfl, ?_⟩
  intro root hsafe
  exact parseEntries_ok_of_safe _ hsafe

/-- Claim C8 amended witness: the amended theorem applied to a concrete
well-formed feed whose entry satisfies the text-safety condition. -/
theorem parser_totality_amended_witness :
    parse_arxiv_response none = Except.ok [] ∧
    isError (parse_arxiv_response (some goodFeed)) = false :=
  ⟨parser_totality_amended.1, parser_totality_amended.2 goodFeed (by decide)⟩

/-! ## Claim C6: empty-window fallback -/
/-- Claim C6: Empty-window fallback.  Under the hypothesis that splitting the
date bound off the dated query recovers the undated query (true whenever the
built query does not itself contain the literal marker text, as for any
ordinary topic list — the witness discharges it by computation): a search
issues at most the initial request plus one retry; the retry — with the date
bound stripped and the cap reduced to min(max_results, 20) — happens exactly
when the first request succeeds, parses to zero results, and the window is
under one year; and when the retry happens the search returns whatever the
retry yields. -/
theorem empty_window_fallback (fetch : String → Nat → Except Unit (Option XmlNode))
    (topics : List String) (max_results days_back : Nat) (start_date : String)
    (hstrip : strip_date_bound (dated_query topics start_date) = base_query topics) :
    ((search_articles fetch topics max_results days_back start_date).calls =
        [(dated_query topics start_date, max_results)] ∨
      (search_articles fetch topics max_results days_back start_date).calls =
        [(dated_query topics start_date, max_results),
         (base_query topics, min max_results 20)]) ∧
    ((search_articles fetch topics max_results days_back start_date).calls.length = 2 ↔
      ∃ raw, fetch (dated_query topics start_date) max_results = Except.ok raw ∧
        parse_arxiv_response raw = Except.ok [] ∧ days_back < 365) ∧
    ((search_articles fetch topics max_results days_back start_date).calls.length = 2 →
      (search_articles fetch topics max_results days_back start_date).result =
        (match fetch (base_query topics) (min max_results 20) with
          | Except.error _ => Except.ok []
          | Except.ok raw2 => parse_arxiv_response raw2)) := by
  cases hf : fetch (dated_query topics start_date) max_results with
  | error u =>
    refine ⟨Or.inl (by simp [search_articles, hf]), ⟨?_, ?_⟩, ?_⟩
    · intro hlen; exfalso; simp [search_articles, hf] at hlen
    · rintro ⟨raw, h1, _, _⟩; cases h1
    · intro hlen; exfalso; simp [search_articles, hf] at hlen
  | ok raw =>
    cases hp : parse_arxiv_response raw with
    | error msg =>
      refine ⟨Or.inl (by simp [search_articles, hf, hp]), ⟨?_, ?_⟩, ?_⟩
      · intro hlen; exfalso; simp [search_articles, hf, hp] at hlen
      · rintro ⟨raw2, h1, h2, _⟩
        injection h1 with hraw
        subst hraw
        rw [hp] at h2
        cases h2
      · intro hlen; exfalso; simp [search_articles, hf, hp] at hlen
    | ok articles =>
      by_cases hc : articles.length = 0 ∧ days_back < 365
      · have hnil : articles = [] := List.length_eq_zero.mp hc.1
        have hcc : articles = [] ∧ days_back < 365 := ⟨hnil, hc.2⟩
        refine ⟨Or.inr ?_, ⟨?_, ?_⟩, ?_⟩
        · cases hf2 : fetch (base_query topics) (min max_results 20) with
          | error v =>
            have hf2s : fetch (strip_date_bound (dated_query topics start_date))
                (min max_results 20) = Except.error v := by rw [hstrip]; exact hf2
            simp [search_articles, hf, hp, hcc, hf2s, hf2, hstrip]
          | ok raw2 =>
            have hf2s : fetch (strip_date_bound (dated_query topics start_date))
                (min max_results 20) = Except.ok raw2 := by rw [hstrip]; exact hf2
            simp [search_articles, hf, hp, hcc, hf2s, hf2, hstrip]
        · intro _
          exact ⟨raw, rfl, by rw [hp, hnil], hc.2⟩
        · intro _
          cases hf2 : fetch (base_query topics) (min max_results 20) with
          | error v =>
            have hf2s : fetch (strip_date_bound (dated_query topics start_date))
                (min max_results 20) = Except.error v := by rw [hstrip]; exact hf2
            simp [search_articles, hf, hp, hcc, hf2s, hf2]
          | ok raw2 =>
            have hf2s : fetch (strip_date_bound (dated_query topics start_date))
                (min max_results 20) = Except.ok raw2 := by rw [hstrip]; exact hf2
            simp [search_articles, hf, hp, hcc, hf2s, hf2]
        · intro _
          cases hf2 : fetch (base_query topics) (min max_results 20) with
          | error v =>
            have hf2s : fetch (strip_date_bound (dated_query topics start_date))
                (min max_results 20) = Except.error v := by rw [hstrip]; exact hf2
            simp [search_articles, hf, hp, hcc, hf2s, hf2]
          | ok raw2 =>
            have hf2s : fetch (strip_date_bound (dated_query topics start_date))
                (min max_results 20) = Except.ok raw2 := by rw [hstrip]; exact hf2
            simp [search_articles, hf, hp, hcc, hf2s, hf2]
      · have hcc : ¬ (articles = [] ∧ days_back < 365) := by
          intro hx
          exact hc ⟨by rw [hx.1]; rfl, hx.2⟩
        refine ⟨Or.inl (by simp [search_articles, hf, hp, hcc]), ⟨?_, ?_⟩, ?_⟩
        · intro hlen; exfalso; simp [search_articles, hf, hp, hcc] at hlen
        · rintro ⟨raw2, h1, h2, h3⟩
          injection h1 with hraw
          subst hraw
          rw [hp] at h2
          injection h2 with harts
          exact absurd ⟨by rw [harts]; rfl, h3⟩ hc
        · intro hlen; exfalso; simp [search_articles, hf, hp, hcc] at hlen

/-- Claim C6 witness: a concrete search under a 7-day window whose first
request parses to zero results issues exactly the dated call and one undated
retry with the reduced cap, and returns the retry's (still empty) outcome. -/
theorem empty_window_fallback_witness :
    ((search_articles fetchEmptyFeed ["cs.AI", "transformer"] 50 7 "20240101").calls =
        [(dated_query ["cs.AI", "transformer"] "20240101", 50)] ∨
      (search_articles fetchEmptyFeed ["cs.AI", "transformer"] 50 7 "20240101").calls =
        [(dated_query ["cs.AI", "transformer"] "20240101", 50),
         (base_query ["cs.AI", "transformer"], min 50 20)]) ∧
    (search_articles fetchEmptyFeed ["cs.AI", "transformer"] 50 7 "20240101").result =
      Except.ok [] := by
  have h := empty_window_fallback fetchEmptyFeed ["cs.AI", "transformer"] 50 7 "20240101"
    (by decide)
  exact ⟨h.1, (h.2.2 (by decide)).trans (by rfl)⟩

end JournalGrabber

